import Mathlib

/-!
Verification of the AI expense tracker pipeline against its specification.

The development shallowly embeds the JavaScript source:

* `withRetry` — the retry/backoff wrapper (`index` variant with retry logic,
  `withRetry` in the main pipeline file);
* the Mongoose expense schema validation (`models/Expense.js`);
* the category-definition parser `parseCategoryData` (`models/Expense.js`);
* the vector store service `init` / `similaritySearch`
  (`services/vectorStore.js`);
* the intent dispatch of `processUserInput` (main pipeline file).

Strings are modelled as `List Char` wherever the source performs character
level work (`trim`, `toLowerCase`, `includes`, `split`, regex matching), so
that every definition reduces by `rfl`/`decide` on concrete inputs.
-/

/-! Section: String helpers (structural re-implementations of the JS string ops) -/

/-- Membership of `pre` as a prefix of a character list (structural). -/
def leadsWith : List Char → List Char → Bool
  | [], _ => true
  | _ :: _, [] => false
  | a :: as, b :: bs => a == b && leadsWith as bs

/-- JS `haystack.includes(needle)` on character lists. -/
def listContainsSub (needle : List Char) : List Char → Bool
  | [] => leadsWith needle []
  | c :: cs => leadsWith needle (c :: cs) || listContainsSub needle cs

/-- Whitespace recognised by JS `String.prototype.trim` (the characters that
can actually occur inside one line of the parsed inputs). -/
def isJsSpace (c : Char) : Bool :=
  c == ' ' || c == '\t' || c == '\r' || c == '\x0b' || c == '\x0c'

/-- JS `line.trim()` on a character list. -/
def trimChars (l : List Char) : List Char :=
  ((l.dropWhile isJsSpace).reverse.dropWhile isJsSpace).reverse

/-- JS `s.split('\n')` on a character list. -/
def splitAtNewlines : List Char → List (List Char)
  | [] => [[]]
  | c :: cs =>
    match splitAtNewlines cs with
    | [] => [[c]]
    | l :: ls => if c == '\n' then [] :: l :: ls else (c :: l) :: ls

/-! Section: Resilient invocation wrapper (`withRetry`)

Source (main pipeline file):

```
async function withRetry(operation, maxRetries = 3) {
    for (let attempt = 1; attempt <= maxRetries; attempt++) {
        try {
            return await operation();
        } catch (error) {
            if (error.message.includes('rate limit') && attempt < maxRetries) {
                const delay = Math.min(1000 * Math.pow(2, attempt), 60000);
                await sleep(delay);
            } else {
                throw error;
            }
        }
    }
}
```

An operation is modelled as a function from the (1-based) attempt number to
its outcome on that attempt; `withRetry` additionally returns the list of
sleep delays (in milliseconds) it performed, in order. -/

/-- A thrown JS error, carrying its `message`. -/
structure JsError where
  message : List Char
deriving DecidableEq, Repr

/-- The check `error.message.includes('rate limit')`. -/
def isRateLimitError (e : JsError) : Bool :=
  listContainsSub ("rate limit".toList) e.message

/-- Outcome of `withRetry`: a returned value, a thrown error, or the JS
`undefined` returned when the loop body never runs (`maxRetries < 1`). -/
inductive RetryResult (α : Type) where
  | success : α → RetryResult α
  | failure : JsError → RetryResult α
  | noResult : RetryResult α
deriving DecidableEq, Repr

/-- The retry loop from attempt `a`; `fuel` counts the remaining loop
iterations (`fuel = maxRetries - a + 1` at every call, so the loop condition
`attempt <= maxRetries` of the source is exactly `fuel > 0`). The second
component collects the sleep delays. -/
def retryGo (op : Nat → Except JsError α) (m : Nat) : Nat → Nat → RetryResult α × List Nat
  | _, 0 => (.noResult, [])
  | a, fuel + 1 =>
    match op a with
    | .ok v => (.success v, [])
    | .error e =>
      if isRateLimitError e = true ∧ a < m then
        let p := retryGo op m (a + 1) fuel
        (p.1, min (1000 * 2 ^ a) 60000 :: p.2)
      else (.failure e, [])

/-- `withRetry(operation, maxRetries)`: run the loop from attempt 1. -/
def withRetry (op : Nat → Except JsError α) (maxRetries : Nat) : RetryResult α × List Nat :=
  retryGo op maxRetries 1 maxRetries

/-- The delay sequence slept when attempts `1 .. n-1` fail with rate-limit
errors: `min(1000 * 2 ^ attempt, 60000)` for `attempt = 1 .. n-1`. -/
def retryDelays (n : Nat) : List Nat :=
  (List.range (n - 1)).map (fun i => min (1000 * 2 ^ (1 + i)) 60000)

/-- Shifting a mapped `range` by one: peel off the first index. -/
theorem range_map_shift {β : Type} (f : Nat → β) (a k : Nat) :
    (List.range (k + 1)).map (fun i => f (a + i)) =
      f a :: (List.range k).map (fun i => f (a + 1 + i)) := by
  rw [List.range_succ_eq_map, List.map_cons, List.map_map]
  refine congrArg₂ _ (by simp) ?_
  apply List.map_congr_left
  intro i _
  simp [Function.comp]
  congr 1
  omega

/-- Core behaviour of the retry loop: failures with rate-limit errors on
attempts `a .. n-1` and a success at attempt `n ≤ m` yield the attempt-`n`
value together with the backoff delays for attempts `a .. n-1`. -/
theorem retryGo_spec {α : Type} (op : Nat → Except JsError α) (m n : Nat) (v : α)
    (hsucc : op n = Except.ok v) :
    ∀ fuel a, 1 ≤ a → a ≤ n → n ≤ m → fuel + a = m + 1 →
      (∀ j, a ≤ j → j < n → ∃ e, op j = Except.error e ∧ isRateLimitError e = true) →
      retryGo op m a fuel =
        (RetryResult.success v,
          (List.range (n - a)).map (fun i => min (1000 * 2 ^ (a + i)) 60000)) := by
  intro fuel
  induction fuel with
  | zero =>
    intro a _ ha hn hfa _
    omega
  | succ fuel ih =>
    intro a h1 han hnm hfa hfail
    by_cases han' : a = n
    · subst han'
      simp [retryGo, hsucc]
    · have halt : a < n := lt_of_le_of_ne han han'
      obtain ⟨e, he, hrl⟩ := hfail a le_rfl halt
      have hrec := ih (a + 1) (by omega) (by omega) hnm (by omega)
        (fun j hj1 hj2 => hfail j (by omega) hj2)
      have hk : n - a = (n - (a + 1)) + 1 := by omega
      rw [hk, range_map_shift (fun j => min (1000 * 2 ^ j) 60000) a (n - (a + 1))]
      simp only [retryGo, he]
      rw [if_pos ⟨hrl, by omega⟩, hrec]

/-- Chains over a mapped `range`: if `R` relates any two consecutive values of
`g`, it chains the whole mapped list. -/
theorem chain_range_map (R : Nat → Nat → Prop) (g : Nat → Nat)
    (hg : ∀ j, R (g j) (g (j + 1))) :
    ∀ k a, List.Chain' R ((List.range k).map (fun i => g (a + i))) := by
  intro k
  induction k with
  | zero => intro a; simp
  | succ k ih =>
    intro a
    rw [range_map_shift g a k]
    cases k with
    | zero => simp
    | succ k' =>
      have htail := ih (a + 1)
      rw [range_map_shift g (a + 1) k'] at htail ⊢
      rw [List.chain'_cons]
      refine ⟨?_, htail⟩
      simpa using hg a

/-- Consecutive backoff delays never decrease. -/
theorem backoff_mono (j : Nat) :
    min (1000 * 2 ^ j) 60000 ≤ min (1000 * 2 ^ (j + 1)) 60000 := by
  have h : (1000 : Nat) * 2 ^ j ≤ 1000 * 2 ^ (j + 1) :=
    Nat.mul_le_mul_left _ (Nat.pow_le_pow_right (by omega) (by omega))
  exact min_le_min h le_rfl

/-- Consecutive backoff delays strictly increase except at the 60s cap. -/
theorem backoff_strict_or_cap (j : Nat) :
    min (1000 * 2 ^ j) 60000 < min (1000 * 2 ^ (j + 1)) 60000 ∨
      min (1000 * 2 ^ (j + 1)) 60000 = 60000 := by
  rcases lt_or_le (1000 * 2 ^ (j + 1)) 60000 with hc | hc
  · left
    have h2 : (1000 : Nat) * 2 ^ j < 1000 * 2 ^ (j + 1) := by
      have hp : (2 : Nat) ^ j < 2 ^ (j + 1) :=
        Nat.pow_lt_pow_right (by omega) (by omega)
      exact Nat.mul_lt_mul_of_le_of_lt (le_refl 1000) hp (by omega)
    rw [min_eq_left (le_of_lt hc), min_eq_left (le_of_lt (lt_trans h2 hc))]
    exact h2
  · right
    exact min_eq_right hc

/-- C2 helper: a first-attempt error that does not signal a rate limit is
rethrown at once, with no sleeping. -/
theorem withRetry_first_error (op : Nat → Except JsError α) (m : Nat) (e : JsError)
    (hm : 1 ≤ m) (hop : op 1 = Except.error e) (hrl : isRateLimitError e = false) :
    withRetry op m = (RetryResult.failure e, []) := by
  obtain ⟨k, rfl⟩ : ∃ k, m = k + 1 := ⟨m - 1, by omega⟩
  simp only [withRetry, retryGo, hop]
  rw [if_neg]
  intro h
  rw [hrl] at h
  exact absurd h.1 (by simp)

/-- An operation failing with a rate-limit error on attempts 1..7 and
succeeding on attempt 8, used to exhibit the repeated 60s cap delay. -/
def opCapRepeat : Nat → Except JsError Nat := fun a =>
  if a < 8 then Except.error ⟨"rate limit".toList⟩ else Except.ok 42

/-- C1 (counterexample): with `maxAttempts = 8` and an operation that fails
with a rate-limit error on attempts 1..7 and succeeds on attempt 8,
`withRetry` returns the success value after sleeping
`[2000, 4000, 8000, 16000, 32000, 60000, 60000]` ms — the last two delays are
both the 60s cap, so the delay sequence is NOT strictly increasing, refuting
the claim. -/
theorem withRetry_delays_not_strictly_increasing :
    withRetry opCapRepeat 8 =
      (RetryResult.success 42, [2000, 4000, 8000, 16000, 32000, 60000, 60000]) ∧
      ¬ List.Chain' (fun a b => a < b) (withRetry opCapRepeat 8).2 := by
  refine ⟨by rfl, ?_⟩
  rw [show (withRetry opCapRepeat 8).2 =
    [2000, 4000, 8000, 16000, 32000, 60000, 60000] from by rfl]
  intro h
  norm_num [List.chain'_cons] at h

/-- C1 (amended): if the operation fails with rate-limit errors on attempts
`1 .. n-1` and succeeds on attempt `n ≤ maxAttempts`, then `withRetry` returns
the attempt-`n` success value, sleeping `min(1000 * 2 ^ attempt, 60000)` ms
between consecutive attempts — a non-decreasing sequence of delays, strictly
increasing except that consecutive delays repeat once they hit the 60s cap,
each delay at most 60 seconds. -/
theorem withRetry_rateLimit_spec {α : Type} (op : Nat → Except JsError α)
    (m n : Nat) (v : α) (h1 : 1 ≤ n) (h2 : n ≤ m)
    (hfail : ∀ j, 1 ≤ j → j < n → ∃ e, op j = Except.error e ∧ isRateLimitError e = true)
    (hsucc : op n = Except.ok v) :
    withRetry op m = (RetryResult.success v, retryDelays n) ∧
      (∀ d ∈ retryDelays n, d ≤ 60000) ∧
      List.Chain' (fun a b => a ≤ b) (retryDelays n) ∧
      List.Chain' (fun a b => a < b ∨ b = 60000) (retryDelays n) := by
  refine ⟨?_, ?_, ?_, ?_⟩
  · have := retryGo_spec op m n v hsucc m 1 le_rfl h1 h2 (by omega) hfail
    rw [withRetry, this]
    rfl
  · intro d hd
    simp only [retryDelays, List.mem_map] at hd
    obtain ⟨i, _, rfl⟩ := hd
    exact min_le_right _ _
  · exact chain_range_map _ (fun j => min (1000 * 2 ^ j) 60000) backoff_mono (n - 1) 1
  · exact chain_range_map _ (fun j => min (1000 * 2 ^ j) 60000)
      backoff_strict_or_cap (n - 1) 1

/-- An operation failing with rate-limit errors on attempts 1 and 2 and
succeeding on attempt 3. -/
def opThirdTry : Nat → Except JsError Nat := fun a =>
  if a < 3 then Except.error ⟨"rate limit".toList⟩ else Except.ok 7

/-- C1 (witness): concrete run of the amended retry theorem with `n = 3`. -/
theorem withRetry_rateLimit_spec_w :
    withRetry opThirdTry 3 = (RetryResult.success 7, retryDelays 3) ∧
      (∀ d ∈ retryDelays 3, d ≤ 60000) ∧
      List.Chain' (fun a b => a ≤ b) (retryDelays 3) ∧
      List.Chain' (fun a b => a < b ∨ b = 60000) (retryDelays 3) :=
  withRetry_rateLimit_spec opThirdTry 3 3 7 (by decide) (by decide)
    (fun j _ hj => ⟨⟨"rate limit".toList⟩,
      by simp only [opThirdTry, if_pos hj], by decide⟩)
    (by rfl)

/-- C2: an error that does not signal a rate-limit condition is propagated
immediately after the first failing attempt: no sleeping (empty delay list)
and no further attempt (the outcome is the same for any operation that agrees
on the first attempt), for every `maxAttempts ≥ 1`. -/
theorem withRetry_other_error_propagates {α : Type} (op : Nat → Except JsError α)
    (m : Nat) (e : JsError) (hm : 1 ≤ m) (hop : op 1 = Except.error e)
    (hrl : isRateLimitError e = false) :
    withRetry op m = (RetryResult.failure e, []) ∧
      ∀ op2 : Nat → Except JsError α, op2 1 = op 1 →
        withRetry op2 m = (RetryResult.failure e, []) := by
  refine ⟨withRetry_first_error op m e hm hop hrl, ?_⟩
  intro op2 hop2
  exact withRetry_first_error op2 m e hm (hop2.trans hop) hrl

/-- An operation that always fails with a non-rate-limit error. -/
def opBoom : Nat → Except JsError Nat := fun _ => Except.error ⟨"boom".toList⟩

/-- C2 (witness): concrete run of the immediate-propagation theorem. -/
theorem withRetry_other_error_propagates_w :
    withRetry opBoom 3 = (RetryResult.failure ⟨"boom".toList⟩, []) ∧
      ∀ op2 : Nat → Except JsError Nat, op2 1 = opBoom 1 →
        withRetry op2 3 = (RetryResult.failure ⟨"boom".toList⟩, []) :=
  withRetry_other_error_propagates opBoom 3 ⟨"boom".toList⟩ (by decide)
    (by rfl) (by decide)

/-! Section: Expense schema validation (`models/Expense.js`)

Source:

```
const expenseSchema = new mongoose.Schema({
    amount: { type: String, required: true },
    category: { type: String, required: true, enum: validCategories },
    subCategory: {
        type: [String], required: true,
        validate: {
            validator: function(subcats) {
                const validSubcategories = categoryData[this.category] || [];
                return subcats.every(subcat => validSubcategories.includes(subcat));
            },
            message: 'Invalid subcategory for the selected category'
        }
    },
    response: { type: String, required: true },
    createdAt: { type: Date, default: Date.now }
});
```

Mongoose semantics modelled here: `required` fails only when the path is
missing (`undefined`/`null`); in particular an array path with `required:
true` passes on an EMPTY array (Mongoose's `checkRequired` for arrays only
checks the value is present). Validators and the `enum` check are skipped
when the path is missing (the `required` error fires instead). Validation
errors are aggregated; `save` persists the document iff there are none. -/

/-- A category taxonomy: ordered mapping category → allowed subcategories
(the shape of the parsed `categoryData` object). -/
abbrev CatMap := List (String × List String)

/-- JS object read `categoryData[c]` on the taxonomy. -/
def lookupTax : CatMap → String → Option (List String)
  | [], _ => none
  | (k, v) :: rest, c => if k = c then some v else lookupTax rest c

/-- A document handed to the Expense model: each schema path is present
(`some`) or missing (`none`). -/
structure ExpenseDoc where
  amount : Option String
  category : Option String
  subCategory : Option (List String)
  response : Option String
deriving DecidableEq, Repr

/-- Validation errors the expense schema can raise. -/
inductive ValidationError where
  | required : String → ValidationError
  | enumInvalid : ValidationError
  | subCategoryInvalid : ValidationError
deriving DecidableEq, Repr

/-- Run the expense schema validation, returning every error raised. -/
def validateExpense (taxonomy : CatMap) (d : ExpenseDoc) : List ValidationError :=
  (match d.amount with
    | none => [ValidationError.required "amount"]
    | some _ => []) ++
  (match d.category with
    | none => [ValidationError.required "category"]
    | some c =>
      if (taxonomy.map Prod.fst).contains c then [] else [ValidationError.enumInvalid]) ++
  (match d.subCategory with
    | none => [ValidationError.required "subCategory"]
    | some subs =>
      let valid := (match d.category with
        | some c => (lookupTax taxonomy c).getD []
        | none => [])
      if subs.all (fun s => valid.contains s) then []
      else [ValidationError.subCategoryInvalid]) ++
  (match d.response with
    | none => [ValidationError.required "response"]
    | some _ => [])

/-- `expense.save()` against a store modelled as the list of persisted
documents: append the document iff validation raises no error, otherwise
leave the store unchanged and surface the errors. -/
def saveExpense (taxonomy : CatMap) (store : List ExpenseDoc) (d : ExpenseDoc) :
    List ExpenseDoc × Option (List ValidationError) :=
  let errs := validateExpense taxonomy d
  if errs.isEmpty then (store ++ [d], none) else (store, some errs)

/-- An ExpenseCandidate: the structured extraction result promoted to a
record, all four schema paths present. -/
structure ExpenseCandidate where
  amount : String
  category : String
  subCategory : List String
  response : String
deriving DecidableEq, Repr

/-- The document built from a candidate (`new Expense({...})` with every
field supplied). -/
def candidateDoc (c : ExpenseCandidate) : ExpenseDoc :=
  { amount := some c.amount, category := some c.category,
    subCategory := some c.subCategory, response := some c.response }

/-- Validation of a fully-populated candidate reduces to the category enum
check and the subcategory membership check. -/
theorem validateExpense_candidate (t : CatMap) (c : ExpenseCandidate) :
    validateExpense t (candidateDoc c) =
      (if (t.map Prod.fst).contains c.category then []
        else [ValidationError.enumInvalid]) ++
      (if c.subCategory.all (fun s => ((lookupTax t c.category).getD []).contains s)
        then [] else [ValidationError.subCategoryInvalid]) := by
  simp [validateExpense, candidateDoc]

/-- C3: promoting an ExpenseCandidate succeeds iff its category is a key of
the taxonomy and every one of its subcategories belongs to
`taxonomy[category]`; when the precondition fails, promotion surfaces the
corresponding error (the enum error for a bad category, the subcategory
validator error for a bad subcategory) and the store is unchanged. -/
theorem expense_promotion_iff (t : CatMap) (store : List ExpenseDoc) (c : ExpenseCandidate) :
    ((saveExpense t store (candidateDoc c)).2 = none ↔
      (c.category ∈ t.map Prod.fst ∧
        ∀ s ∈ c.subCategory, s ∈ (lookupTax t c.category).getD [])) ∧
    (∀ errs, (saveExpense t store (candidateDoc c)).2 = some errs →
      (saveExpense t store (candidateDoc c)).1 = store ∧
      (c.category ∉ t.map Prod.fst → ValidationError.enumInvalid ∈ errs) ∧
      (c.category ∈ t.map Prod.fst →
        ¬ (∀ s ∈ c.subCategory, s ∈ (lookupTax t c.category).getD []) →
        ValidationError.subCategoryInvalid ∈ errs)) := by
  have hall : (c.subCategory.all
      (fun s => ((lookupTax t c.category).getD []).contains s) = true) ↔
      ∀ s ∈ c.subCategory, s ∈ (lookupTax t c.category).getD [] := by
    rw [List.all_eq_true]
    constructor
    · intro h s hs
      exact List.elem_iff.mp (h s hs)
    · intro h s hs
      exact List.elem_iff.mpr (h s hs)
  by_cases h1 : c.category ∈ t.map Prod.fst
  · have hb1 : (t.map Prod.fst).contains c.category = true := List.elem_iff.mpr h1
    by_cases h2 : ∀ s ∈ c.subCategory, s ∈ (lookupTax t c.category).getD []
    · have hb2 : (c.subCategory.all
          (fun s => ((lookupTax t c.category).getD []).contains s)) = true := hall.mpr h2
      have hs : saveExpense t store (candidateDoc c) = (store ++ [candidateDoc c], none) := by
        simp only [saveExpense, validateExpense_candidate, hb1, hb2]
        rfl
      rw [hs]
      exact ⟨⟨fun _ => ⟨h1, h2⟩, fun _ => rfl⟩, fun errs he => by simp at he⟩
    · have hb2 : (c.subCategory.all
          (fun s => ((lookupTax t c.category).getD []).contains s)) = false := by
        rw [Bool.eq_false_iff, Ne, hall]
        exact h2
      have hs : saveExpense t store (candidateDoc c) =
          (store, some [ValidationError.subCategoryInvalid]) := by
        simp only [saveExpense, validateExpense_candidate, hb1, hb2]
        rfl
      rw [hs]
      refine ⟨by simp [h2], fun errs he => ?_⟩
      obtain rfl : [ValidationError.subCategoryInvalid] = errs := by
        injection he
      exact ⟨rfl, fun hn => absurd h1 hn, fun _ _ => by simp⟩
  · have hb1 : (t.map Prod.fst).contains c.category = false := by
      rw [Bool.eq_false_iff, Ne, List.elem_iff]
      exact h1
    by_cases h2 : c.subCategory.all
        (fun s => ((lookupTax t c.category).getD []).contains s) = true
    · have hs : saveExpense t store (candidateDoc c) =
          (store, some [ValidationError.enumInvalid]) := by
        simp only [saveExpense, validateExpense_candidate, hb1, h2]
        rfl
      rw [hs]
      refine ⟨by simp [h1], fun errs he => ?_⟩
      obtain rfl : [ValidationError.enumInvalid] = errs := by
        injection he
      exact ⟨rfl, fun _ => by simp, fun hm => absurd hm h1⟩
    · have hb2 : (c.subCategory.all
          (fun s => ((lookupTax t c.category).getD []).contains s)) = false :=
        Bool.eq_false_iff.mpr h2
      have hs : saveExpense t store (candidateDoc c) =
          (store, some [ValidationError.enumInvalid,
            ValidationError.subCategoryInvalid]) := by
        simp only [saveExpense, validateExpense_candidate, hb1, hb2]
        rfl
      rw [hs]
      refine ⟨by simp [h1], fun errs he => ?_⟩
      obtain rfl : [ValidationError.enumInvalid,
          ValidationError.subCategoryInvalid] = errs := by
        injection he
      exact ⟨rfl, fun _ => by simp, fun hm => absurd hm h1⟩

/-- A taxonomy with the single category `Food`. -/
def taxFood : CatMap := [("Food", ["Groceries", "Dining out", "Snacks"])]

/-- A candidate whose category and subcategories are valid. -/
def goodCand : ExpenseCandidate :=
  { amount := "500", category := "Food", subCategory := ["Groceries"], response := "ok" }

/-- A candidate whose category is not a taxonomy key. -/
def badCand : ExpenseCandidate :=
  { amount := "500", category := "Travel", subCategory := ["Flights"], response := "no" }

/-- C3 (witness): a valid candidate is persisted; an invalid-category
candidate leaves the store unchanged and surfaces the enum error. -/
theorem expense_promotion_iff_w :
    (saveExpense taxFood [] (candidateDoc goodCand)).2 = none ∧
      (saveExpense taxFood [] (candidateDoc badCand)).1 = [] ∧
      ValidationError.enumInvalid ∈
        [ValidationError.enumInvalid, ValidationError.subCategoryInvalid] := by
  refine ⟨?_, ?_, ?_⟩
  · exact (expense_promotion_iff taxFood [] goodCand).1.mpr ⟨by decide, by decide⟩
  · exact ((expense_promotion_iff taxFood [] badCand).2
      [ValidationError.enumInvalid, ValidationError.subCategoryInvalid] (by rfl)).1
  · exact ((expense_promotion_iff taxFood [] badCand).2
      [ValidationError.enumInvalid, ValidationError.subCategoryInvalid] (by rfl)).2.1
      (by decide)

/-- A candidate with a valid category and an EMPTY subcategory list. -/
def emptySubsCand : ExpenseCandidate :=
  { amount := "100", category := "Food", subCategory := [], response := "lunch" }

/-- C9 (counterexample): a candidate with an empty subcategories list passes
schema validation and IS persisted — `required: true` on a Mongoose array
accepts `[]` and the `every`-based validator is vacuously true on `[]`, so
promotion does not reject empty subcategory lists. -/
theorem empty_subCategory_promotes :
    saveExpense taxFood [] (candidateDoc emptySubsCand) =
      ([candidateDoc emptySubsCand], none) := by rfl

/-- C9 (amended): schema validation never rejects a candidate for having an
empty subcategories list — any candidate with a valid category and no
subcategories is promoted and persisted. -/
theorem promotion_allows_empty_subCategory (t : CatMap) (store : List ExpenseDoc)
    (c : ExpenseCandidate) (hsub : c.subCategory = [])
    (hcat : c.category ∈ t.map Prod.fst) :
    saveExpense t store (candidateDoc c) = (store ++ [candidateDoc c], none) := by
  have hb1 : (t.map Prod.fst).contains c.category = true := List.elem_iff.mpr hcat
  simp only [saveExpense, validateExpense_candidate, hsub, hb1]
  rfl

/-- C9 (witness): concrete empty-subcategory promotion. -/
theorem promotion_allows_empty_subCategory_w :
    saveExpense taxFood [] (candidateDoc emptySubsCand) =
      ([] ++ [candidateDoc emptySubsCand], none) :=
  promotion_allows_empty_subCategory taxFood [] emptySubsCand (by rfl) (by decide)

/-! Section: Vector store service (`services/vectorStore.js`)

Source:

```
async init() {
    try {
        if (existsSync(VECTOR_INDEX_PATH)) {
            this.vectorStore = await HNSWLib.load(VECTOR_STORE_PATH, this.embeddings);
        } else {
            const dummyDoc = new Document({
                pageContent: "Initialization document",
                metadata: { initialization: true }
            });
            this.vectorStore = await HNSWLib.fromDocuments([dummyDoc], this.embeddings);
            await this.vectorStore.save(VECTOR_STORE_PATH);
        }
    } catch (error) { console.error(...); throw error; }
}

async similaritySearch(query, k = 5) {
    if (!this.vectorStore) { await this.init(); }
    try {
        const results = await this.vectorStore.similaritySearch(query, k);
        return results.filter(doc => !doc.metadata?.initialization);
    } catch (error) { console.error(...); return []; }
}
```

The external HNSW library and the filesystem are modelled by a `VectorWorld`:
the existence of the `hnswlib.index` marker file, the persisted documents,
the possible failures of `load` / `fromDocuments`+`save`, and the behaviour
of the underlying nearest-neighbor search (an arbitrary function of the
attached documents, the query and `k`). The attached handle
(`this.vectorStore`) is modelled by the list of documents of the index it is
attached to. -/

/-- Metadata of an indexed document; `initialization` is the sentinel flag
(absent metadata or an absent flag is `false`, matching the truthiness test
`doc.metadata?.initialization`). -/
structure DocMetadata where
  initialization : Bool
  id : Option String
deriving DecidableEq, Repr

/-- A document held in the vector index. -/
structure VDoc where
  pageContent : String
  metadata : DocMetadata
deriving DecidableEq, Repr

/-- The sentinel document used to seed a fresh index. -/
def sentinelDoc : VDoc :=
  { pageContent := "Initialization document",
    metadata := { initialization := true, id := none } }

/-- The external world of the vector store service. -/
structure VectorWorld where
  indexFileExists : Bool
  persistedDocs : List VDoc
  loadError : Option JsError
  createError : Option JsError
  searchResult : List VDoc → String → Nat → Except JsError (List VDoc)

/-- The in-process service state: the attached handle or `null`. -/
structure VSState where
  vectorStore : Option (List VDoc)
deriving Repr

/-- `init()`: load the persisted index when the marker file exists, otherwise
create a fresh index holding exactly the sentinel document and persist it.
Any load/create error is rethrown. -/
def vsInit (w : VectorWorld) (_s : VSState) : Except JsError (VectorWorld × VSState) :=
  if w.indexFileExists then
    match w.loadError with
    | some e => Except.error e
    | none => Except.ok (w, { vectorStore := some w.persistedDocs })
  else
    match w.createError with
    | some e => Except.error e
    | none =>
      Except.ok ({ w with indexFileExists := true, persistedDocs := [sentinelDoc] },
        { vectorStore := some [sentinelDoc] })

/-- The body of the `try` block of `similaritySearch` once a handle is
attached: run the underlying search; on an error return `[]`, otherwise
filter out documents carrying the `initialization` flag. -/
def searchAttached (w : VectorWorld) (docs : List VDoc) (query : String) (k : Nat) :
    List VDoc :=
  match w.searchResult docs query k with
  | Except.error _ => []
  | Except.ok results => results.filter (fun d => !d.metadata.initialization)

/-- `similaritySearch(query, k)`: lazy-init when no handle is attached (an
init error propagates — it is raised before the `try` block); then search.
The degenerate case of a still-missing handle after a successful init cannot
occur (`vsInit` always attaches one); it is mapped to the caught-`TypeError`
outcome `[]`. -/
def vsSimilaritySearch (w : VectorWorld) (s : VSState) (query : String) (k : Nat) :
    Except JsError (VectorWorld × VSState × List VDoc) :=
  match s.vectorStore with
  | some docs => Except.ok (w, s, searchAttached w docs query k)
  | none =>
    match vsInit w s with
    | Except.error e => Except.error e
    | Except.ok (w1, s1) =>
      match s1.vectorStore with
      | some docs => Except.ok (w1, s1, searchAttached w1 docs query k)
      | none => Except.ok (w1, s1, [])

/-- C4: whatever the query, `k`, service state and behaviour of the
underlying index, no document returned by `similaritySearch` carries the
`initialization` flag — the sentinel document is never returned. -/
theorem similaritySearch_no_sentinel (w : VectorWorld) (s : VSState)
    (query : String) (k : Nat) (w' : VectorWorld) (s' : VSState) (out : List VDoc)
    (h : vsSimilaritySearch w s query k = Except.ok (w', s', out)) :
    ∀ d ∈ out, d.metadata.initialization = false := by
  have hfilter : ∀ (w0 : VectorWorld) (docs : List VDoc),
      ∀ d ∈ searchAttached w0 docs query k, d.metadata.initialization = false := by
    intro w0 docs d hd
    unfold searchAttached at hd
    rcases hres : w0.searchResult docs query k with e | results
    · rw [hres] at hd
      simp at hd
    · rw [hres] at hd
      have := List.of_mem_filter hd
      simpa using this
  unfold vsSimilaritySearch at h
  split at h
  · rename_i docs hvs
    obtain ⟨rfl, rfl, rfl⟩ :
        w = w' ∧ s = s' ∧ searchAttached w docs query k = out := by
      injection h with h
      injection h with h1 h2
      injection h2 with h2 h3
      exact ⟨h1, h2, h3⟩
    exact hfilter _ _
  · split at h
    · exact absurd h (by simp)
    · rename_i w1 s1 hinit
      split at h
      · rename_i docs1 hvs1
        obtain ⟨rfl, rfl, rfl⟩ :
            w1 = w' ∧ s1 = s' ∧ searchAttached w1 docs1 query k = out := by
          injection h with h
          injection h with h1 h2
          injection h2 with h2 h3
          exact ⟨h1, h2, h3⟩
        exact hfilter _ _
      · obtain ⟨rfl, rfl, rfl⟩ : w1 = w' ∧ s1 = s' ∧ ([] : List VDoc) = out := by
          injection h with h
          injection h with h1 h2
          injection h2 with h2 h3
          exact ⟨h1, h2, h3⟩
        intro d hd
        simp at hd

/-- A non-sentinel document over lunch. -/
def lunchDoc : VDoc :=
  { pageContent := "[FOOD] Expense of 500 for lunch",
    metadata := { initialization := false, id := some "abc" } }

/-- A world whose underlying nearest-neighbor search returns the attached
documents verbatim (sentinel included). -/
def echoWorld : VectorWorld :=
  { indexFileExists := true,
    persistedDocs := [sentinelDoc, lunchDoc],
    loadError := none,
    createError := none,
    searchResult := fun docs _ _ => Except.ok docs }

/-- A state already attached to the persisted index of `echoWorld`. -/
def attachedState : VSState := { vectorStore := some [sentinelDoc, lunchDoc] }

/-- C4 (witness): even when the underlying search returns the sentinel
document itself, the service filters it out. -/
theorem similaritySearch_no_sentinel_w :
    lunchDoc.metadata.initialization = false :=
  similaritySearch_no_sentinel echoWorld attachedState "food expenses" 5
    echoWorld attachedState [lunchDoc] (by rfl) lunchDoc (List.mem_singleton.mpr rfl)

/-- C5: when the underlying nearest-neighbor search raises an error, the
error is not propagated: `similaritySearch` returns the empty list --- both
when a handle is already attached and when it was attached by lazy init. -/
theorem similaritySearch_degrades_to_empty (w : VectorWorld) (s : VSState)
    (query : String) (k : Nat) (e : JsError) :
    (∀ docs, s.vectorStore = some docs → w.searchResult docs query k = Except.error e →
      vsSimilaritySearch w s query k = Except.ok (w, s, [])) ∧
    (∀ w1 s1 docs, s.vectorStore = none → vsInit w s = Except.ok (w1, s1) →
      s1.vectorStore = some docs → w1.searchResult docs query k = Except.error e →
      vsSimilaritySearch w s query k = Except.ok (w1, s1, [])) := by
  constructor
  · intro docs hvs hse
    unfold vsSimilaritySearch
    rw [hvs]
    show Except.ok (w, s, searchAttached w docs query k) =
      Except.ok (w, s, ([] : List VDoc))
    unfold searchAttached
    rw [hse]
  · intro w1 s1 docs hvs hinit hvs1 hse
    unfold vsSimilaritySearch
    rw [hvs]
    simp only [hinit]
    rw [hvs1]
    show Except.ok (w1, s1, searchAttached w1 docs query k) =
      Except.ok (w1, s1, ([] : List VDoc))
    unfold searchAttached
    rw [hse]

/-- A world like `echoWorld` whose underlying search always throws. -/
def throwingWorld : VectorWorld :=
  { indexFileExists := true,
    persistedDocs := [sentinelDoc, lunchDoc],
    loadError := none,
    createError := none,
    searchResult := fun _ _ _ => Except.error ⟨"connect ECONNREFUSED".toList⟩ }

/-- C5 (witness): a throwing search yields the empty result, attached and
lazily initialized alike. -/
theorem similaritySearch_degrades_to_empty_w :
    vsSimilaritySearch throwingWorld attachedState "food" 5 =
        Except.ok (throwingWorld, attachedState, []) ∧
      vsSimilaritySearch throwingWorld { vectorStore := none } "food" 5 =
        Except.ok (throwingWorld, attachedState, []) := by
  constructor
  · exact (similaritySearch_degrades_to_empty throwingWorld attachedState "food" 5
      ⟨"connect ECONNREFUSED".toList⟩).1 [sentinelDoc, lunchDoc] (by rfl) (by rfl)
  · exact (similaritySearch_degrades_to_empty throwingWorld { vectorStore := none }
      "food" 5 ⟨"connect ECONNREFUSED".toList⟩).2 throwingWorld attachedState
      [sentinelDoc, lunchDoc] (by rfl) (by rfl) (by rfl) (by rfl)

/-- C6: `init` is idempotent: after a successful first call, a successful
second call attaches the same index handle (the same document contents) and
adds no new sentinel document (the persisted contents are unchanged);
moreover a fresh index seeded with exactly one sentinel document is created
and persisted only when the index marker file does not exist: when the
marker exists the persisted documents are left untouched. -/
theorem vsInit_idempotent (w w1 w2 : VectorWorld) (s s1 s2 : VSState)
    (h1 : vsInit w s = Except.ok (w1, s1)) (h2 : vsInit w1 s1 = Except.ok (w2, s2)) :
    s2.vectorStore = s1.vectorStore ∧
      w2.persistedDocs = w1.persistedDocs ∧
      (w.indexFileExists = true → w1.persistedDocs = w.persistedDocs) ∧
      (w.indexFileExists = false →
        w1.persistedDocs = [sentinelDoc] ∧ w1.indexFileExists = true) := by
  have hshape : ∀ (wa wb : VectorWorld) (sa sb : VSState),
      vsInit wa sa = Except.ok (wb, sb) →
      sb.vectorStore = some wb.persistedDocs ∧ wb.indexFileExists = true ∧
        (wa.indexFileExists = true → wb = wa) ∧
        (wa.indexFileExists = false →
          wb = { wa with indexFileExists := true, persistedDocs := [sentinelDoc] }) := by
    intro wa wb sa sb h
    unfold vsInit at h
    split at h
    · rename_i hex
      split at h
      · exact absurd h (by simp)
      · obtain ⟨rfl, rfl⟩ : wa = wb ∧ ({ vectorStore := some wa.persistedDocs } : VSState) = sb := by
          injection h with h
          injection h with ha hb
          exact ⟨ha, hb⟩
        exact ⟨rfl, hex, fun _ => rfl, fun hc => absurd hex (by simp [hc])⟩
    · rename_i hex
      split at h
      · exact absurd h (by simp)
      · obtain ⟨rfl, rfl⟩ :
            ({ wa with indexFileExists := true, persistedDocs := [sentinelDoc] } : VectorWorld) = wb ∧
              ({ vectorStore := some [sentinelDoc] } : VSState) = sb := by
          injection h with h
          injection h with ha hb
          exact ⟨ha, hb⟩
        exact ⟨rfl, rfl, fun hc => absurd hc hex, fun _ => rfl⟩
  obtain ⟨ha1, hb1, hc1, hd1⟩ := hshape w w1 s s1 h1
  obtain ⟨ha2, _, hc2, _⟩ := hshape w1 w2 s1 s2 h2
  have hw2 : w2 = w1 := hc2 hb1
  subst hw2
  refine ⟨by rw [ha2, ha1], rfl, ?_, ?_⟩
  · intro hex
    rw [hc1 hex]
  · intro hex
    rw [hd1 hex]
    exact ⟨rfl, rfl⟩

/-- A world with no index marker file and no failures: the first `init`
creates a fresh sentinel-seeded index. -/
def freshWorld : VectorWorld :=
  { indexFileExists := false,
    persistedDocs := [],
    loadError := none,
    createError := none,
    searchResult := fun docs _ _ => Except.ok docs }

/-- The world `freshWorld` after its first `init`: marker written, sentinel
persisted. -/
def seededWorld : VectorWorld :=
  { indexFileExists := true,
    persistedDocs := [sentinelDoc],
    loadError := none,
    createError := none,
    searchResult := fun docs _ _ => Except.ok docs }

/-- The state attached to the sentinel-seeded index. -/
def seededState : VSState := { vectorStore := some [sentinelDoc] }

/-- C6 (witness): two consecutive successful `init` calls on a fresh world. -/
theorem vsInit_idempotent_w :
    seededState.vectorStore = seededState.vectorStore ∧
      seededWorld.persistedDocs = seededWorld.persistedDocs ∧
      (freshWorld.indexFileExists = true →
        seededWorld.persistedDocs = freshWorld.persistedDocs) ∧
      (freshWorld.indexFileExists = false →
        seededWorld.persistedDocs = [sentinelDoc] ∧
          seededWorld.indexFileExists = true) :=
  vsInit_idempotent freshWorld seededWorld seededWorld
    { vectorStore := none } seededState seededState
    (by rfl) (by rfl)

/-- C10: when no handle is attached and the lazy initialization inside
`similaritySearch` fails, the error propagates to the caller — the
degrade-to-empty policy covers only the underlying search call. -/
theorem similaritySearch_init_error_propagates (w : VectorWorld) (s : VSState)
    (query : String) (k : Nat) (e : JsError) (hvs : s.vectorStore = none)
    (hinit : vsInit w s = Except.error e) :
    vsSimilaritySearch w s query k = Except.error e := by
  unfold vsSimilaritySearch
  rw [hvs]
  simp only [hinit]

/-- A world whose marker file exists but whose persisted index fails to
load. -/
def corruptWorld : VectorWorld :=
  { indexFileExists := true,
    persistedDocs := [],
    loadError := some ⟨"Could not read hnswlib.index".toList⟩,
    createError := none,
    searchResult := fun docs _ _ => Except.ok docs }

/-- C10 (witness): a failing lazy load propagates out of
`similaritySearch`. -/
theorem similaritySearch_init_error_propagates_w :
    vsSimilaritySearch corruptWorld { vectorStore := none } "food" 5 =
      Except.error ⟨"Could not read hnswlib.index".toList⟩ :=
  similaritySearch_init_error_propagates corruptWorld { vectorStore := none }
    "food" 5 ⟨"Could not read hnswlib.index".toList⟩ (by rfl) (by rfl)

/-! Section: Category definition parser (`models/Expense.js`)

Source:

```
function parseCategoryData(data) {
    const categories = {};
    let currentCategory = null;
    data.split('\n').forEach(line => {
        if (!line.trim() || line.includes('Expense Categories:')) return;
        const categoryMatch = line.match(/^\d+\.\s+(.+)/);
        if (categoryMatch) {
            currentCategory = categoryMatch[1].trim();
            categories[currentCategory] = [];
        } else if (currentCategory && line.trim().startsWith('-')) {
            const subcategory = line.replace('-', '').trim();
            categories[currentCategory].push(subcategory);
        }
    });
    return categories;
}
```

The JS object `categories` is modelled as an association list in insertion
order; assigning an existing key replaces its value in place, a new key is
appended. The regex `^\d+\.\s+(.+)/` is modelled structurally (maximal digit
run, a dot, a non-empty whitespace run, then a non-empty capture; the greedy
`\s+` gives one character back to `(.+)` when the line ends in whitespace).
Lines are assumed free of carriage returns (`.` is modelled as matching any
remaining character of the line). -/

/-- JS object assignment `categories[k] = []`: replace in place if the key
exists, otherwise append. -/
def setKeyEmpty (m : CatMap) (k : String) : CatMap :=
  if m.any (fun p => p.1 == k) then
    m.map (fun p => if p.1 == k then (k, []) else p)
  else m ++ [(k, [])]

/-- JS `categories[k].push(s)`. -/
def pushSub (m : CatMap) (k : String) (s : String) : CatMap :=
  m.map (fun p => if p.1 == k then (p.1, p.2 ++ [s]) else p)

/-- JS `line.replace('-', '')`: drop the first dash, if any. -/
def removeFirstDash : List Char → List Char
  | [] => []
  | c :: cs => if c == '-' then cs else c :: removeFirstDash cs

/-- The test `!line.trim() || line.includes('Expense Categories:')`. -/
def lineIsSkipped (l : List Char) : Bool :=
  (trimChars l).isEmpty || listContainsSub ("Expense Categories:".toList) l

/-- The match `line.match(/^\d+\.\s+(.+)/)`, returning the capture group. -/
def matchCategory (l : List Char) : Option (List Char) :=
  let ds := l.takeWhile Char.isDigit
  if ds.isEmpty then none
  else
    match l.drop ds.length with
    | '.' :: rest =>
      let ws := rest.takeWhile isJsSpace
      if ws.isEmpty then none
      else
        let tl := rest.drop ws.length
        if tl.isEmpty then
          if 2 ≤ ws.length then
            match ws.getLast? with
            | some c => some [c]
            | none => none
          else none
        else some tl
    | _ => none

/-- The per-line step of `parseCategoryData` (accumulator: the categories
object and the current category). -/
def parseStep (acc : CatMap × Option String) (l : List Char) : CatMap × Option String :=
  if lineIsSkipped l then acc
  else
    match matchCategory l with
    | some g =>
      let c := String.mk (trimChars g)
      (setKeyEmpty acc.1 c, some c)
    | none =>
      match acc.2 with
      | some cur =>
        match trimChars l with
        | '-' :: _ => (pushSub acc.1 cur (String.mk (trimChars (removeFirstDash l))), acc.2)
        | _ => acc
      | none => acc

/-- `parseCategoryData` over pre-split lines. -/
def parseCategoryLines (lines : List (List Char)) : CatMap :=
  (lines.foldl parseStep ([], none)).1

/-- `parseCategoryData(data)`. -/
def parseCategoryData (data : String) : CatMap :=
  parseCategoryLines (splitAtNewlines data.toList)

/-- C7 (counterexample): on a malformed definition whose first line is a
subcategory bullet appearing before any category line, `parseCategoryData`
raises nothing and silently produces a taxonomy — the stray bullet is
dropped. No `TaxonomyLoadError` exists anywhere in the code. -/
theorem parse_malformed_silently_succeeds :
    parseCategoryData "- Stray\n1. Food\n- Groceries" = [("Food", ["Groceries"])] := by
  rfl

/-- C7 (amended): a malformed prefix is silently ignored rather than raising
an error: any leading lines in which no line matches the category pattern
(in particular subcategory bullet lines appearing before any category line)
leave the parse result unchanged, and a taxonomy is always produced. -/
theorem parse_ignores_lines_before_first_category (pre rest : List (List Char))
    (hpre : ∀ l ∈ pre, matchCategory l = none) :
    parseCategoryLines (pre ++ rest) = parseCategoryLines rest := by
  unfold parseCategoryLines
  rw [List.foldl_append]
  have hstart : pre.foldl parseStep ([], none) = (([] : CatMap), (none : Option String)) := by
    induction pre with
    | nil => rfl
    | cons l ls ih =>
      have hl : matchCategory l = none := hpre l (by simp)
      have hstep : parseStep ([], none) l = (([] : CatMap), (none : Option String)) := by
        unfold parseStep
        split
        · rfl
        · rw [hl]
      rw [List.foldl_cons, hstep]
      exact ih (fun x hx => hpre x (by simp [hx]))
  rw [hstart]

/-- C7 (witness): a concrete malformed prefix ignored by the parser. -/
theorem parse_ignores_lines_before_first_category_w :
    parseCategoryLines (["- Stray".toList] ++ ["1. Food".toList]) =
      parseCategoryLines ["1. Food".toList] :=
  parse_ignores_lines_before_first_category ["- Stray".toList] ["1. Food".toList]
    (fun l hl => by rw [List.mem_singleton] at hl; rw [hl]; rfl)

/-! Section: Intent dispatch of `processUserInput` (main pipeline file)

Source:

```
const intent = intentResult.text.toLowerCase().trim();
switch (intent) {
    case 'add': {
        const analysis = await expenseChain.call({ text: input });
        const expenseData = JSON.parse(analysis.text);
        const expense = new Expense({
            amount: expenseData.amount,
            category: expenseData.category,
            subCategory: expenseData['sub-category'] || [],
            response: expenseData.response
        });
        await expense.save();
        ...
        break;
    }
    case 'retrieve': { ... break; }
}
```

The `switch` has NO default case: an unmatched intent token falls through
and the function completes having done nothing. The surrounding `try` block
reports (logs) any thrown error and swallows it. `Char.toLower` models the
ASCII behaviour of JS `toLowerCase` (sufficient for the two matched
tokens). -/

/-- What one `processUserInput` cycle did with the input. -/
inductive FlowEffect where
  | addPerformed : FlowEffect
  | retrievePerformed : FlowEffect
  | nothing : FlowEffect
deriving DecidableEq, Repr

/-- The dispatch on `intentResult.text.toLowerCase().trim()`: the two switch
cases, or the fall-through when neither matches. -/
def routeIntent (intentResponseText : String) : FlowEffect :=
  let intent := trimChars (intentResponseText.toList.map Char.toLower)
  if intent = "add".toList then FlowEffect.addPerformed
  else if intent = "retrieve".toList then FlowEffect.retrievePerformed
  else FlowEffect.nothing

/-- The structured extraction result parsed from the model's JSON reply; the
`sub-category` field may be absent (`expenseData['sub-category'] || []`). -/
structure ExpenseData where
  amount : String
  category : String
  subCategoryField : Option (List String)
  response : String
deriving DecidableEq, Repr

/-- The document built by `new Expense({...})` from parsed JSON. -/
def dataToDoc (x : ExpenseData) : ExpenseDoc :=
  { amount := some x.amount, category := some x.category,
    subCategory := some (x.subCategoryField.getD []),
    response := some x.response }

/-- One `processUserInput` cycle over the persistence store, given the
model's intent reply and the outcome of extraction+JSON-parsing for the add
flow. Returns the new store and the error reported by the outer `catch`
(`none` when the cycle completed without a thrown error). The retrieval flow
and the vector-store mirror do not touch the persistence store and are
modelled elsewhere (`vsSimilaritySearch`). -/
def processUserInput (taxonomy : CatMap) (intentResponseText : String)
    (extraction : Except JsError ExpenseData) (store : List ExpenseDoc) :
    List ExpenseDoc × Option JsError :=
  match routeIntent intentResponseText with
  | FlowEffect.addPerformed =>
    match extraction with
    | Except.error e => (store, some e)
    | Except.ok x =>
      match saveExpense taxonomy store (dataToDoc x) with
      | (store1, none) => (store1, none)
      | (store1, some _) => (store1, some ⟨"Expense validation failed".toList⟩)
  | FlowEffect.retrievePerformed => (store, none)
  | FlowEffect.nothing => (store, none)

/-- Extraction output used in the counterexample (never reached). -/
def unusedExtraction : ExpenseData :=
  { amount := "500", category := "Food", subCategoryField := some ["Groceries"],
    response := "ok" }

/-- C8 (counterexample): on the model reply `"delete"` — a token other than
`add`/`retrieve` — the dispatch performs no action at all and the cycle
completes without any error (`none`): no `IntentParseError` is raised or
surfaced (the switch simply has no default case). -/
theorem unmatched_intent_is_silent_noop :
    routeIntent "delete" = FlowEffect.nothing ∧
      processUserInput taxFood "delete" (Except.ok unusedExtraction) [] =
        ([], none) := by
  exact ⟨by rfl, by rfl⟩

/-- C8 (amended): the intent dispatch lower-cases and trims the model's
reply before matching (a reply normalizing to `add` or `retrieve` enters the
corresponding flow); any other reply makes the cycle do nothing and surface
no error: the store is unchanged and no classification failure is raised. -/
theorem intent_dispatch_spec (taxonomy : CatMap) (resp : String)
    (extraction : Except JsError ExpenseData) (store : List ExpenseDoc) :
    (trimChars (resp.toList.map Char.toLower) = "add".toList →
      routeIntent resp = FlowEffect.addPerformed) ∧
    (trimChars (resp.toList.map Char.toLower) = "retrieve".toList →
      routeIntent resp = FlowEffect.retrievePerformed) ∧
    (trimChars (resp.toList.map Char.toLower) ≠ "add".toList →
      trimChars (resp.toList.map Char.toLower) ≠ "retrieve".toList →
      routeIntent resp = FlowEffect.nothing ∧
        processUserInput taxonomy resp extraction store = (store, none)) := by
  refine ⟨?_, ?_, ?_⟩
  · intro h
    unfold routeIntent
    rw [if_pos h]
  · intro h
    unfold routeIntent
    rw [if_neg (by rw [h]; decide), if_pos h]
  · intro h1 h2
    have hroute : routeIntent resp = FlowEffect.nothing := by
      unfold routeIntent
      rw [if_neg h1, if_neg h2]
    refine ⟨hroute, ?_⟩
    unfold processUserInput
    rw [hroute]

/-- C8 (witness): concrete dispatches — `" ADD "` normalizes to the add
flow, `"Retrieve"` to the retrieval flow, and `"delete all"` does nothing. -/
theorem intent_dispatch_spec_w :
    (routeIntent " ADD " = FlowEffect.addPerformed) ∧
      (routeIntent "Retrieve" = FlowEffect.retrievePerformed) ∧
      (routeIntent "delete all" = FlowEffect.nothing ∧
        processUserInput taxFood "delete all" (Except.ok unusedExtraction) [] =
          ([], none)) :=
  ⟨(intent_dispatch_spec taxFood " ADD " (Except.ok unusedExtraction) []).1 (by rfl),
    (intent_dispatch_spec taxFood "Retrieve" (Except.ok unusedExtraction) []).2.1 (by rfl),
    (intent_dispatch_spec taxFood "delete all" (Except.ok unusedExtraction) []).2.2
      (by decide) (by decide)⟩
